import Mathlib

/-!
OBS "App Audio Restart" filter: embedding of obs-app-audio-source-restart-filter.c

The plugin is a filter whose per-frame callback `gain_tick` watches the enabled
flag of the filter.  On every change it walks up the parent links to the owning input
source (`try_find_input_source`) and, when that source is a
`wasapi_process_output_capture` source, rewrites its `window` setting away and back
(`restart_source`, with `clear_window_title` computing the "away" value).

Conventions of the embedding:

* a C string is the list of its characters before the terminating NUL (`CStr`);
* `obs_source_t *` values are natural-number handles, `NULL` is `none`;
* the host (libobs) is an explicit `Host` value that every function threads through:
  the source graph, the settings of every source, the allocator logs, the `blog`
  output and the list of `obs_source_update` calls;
* the `while` loop of `try_find_input_source` takes a fuel argument (one unit per
  evaluation of the loop condition); `none` means the fuel ran out.
-/

namespace AppAudioRestart

/-! ## C strings and the libc functions the plugin calls -/

/-- Contents of a NUL-terminated C string: the characters before the terminator. -/
abbrev CStr := List Char

/-- C library `strlen`: number of characters before the terminator. -/
def strlen : CStr → Nat
  | [] => 0
  | _ :: rest => strlen rest + 1

/-- C library `strchr`: the tail of the string that begins at the first occurrence of
`ch` (the returned pointer points into the argument), `none` for a NULL result. -/
def strchr : CStr → Char → Option CStr
  | [], _ => none
  | c :: rest, ch => if c = ch then some (c :: rest) else strchr rest ch

/-- C library `strcmp`: zero when the strings are equal, otherwise the sign of the
first position at which they differ (a missing character counts as the terminator,
which is smaller than every character of a string). -/
def strcmp : CStr → CStr → Int
  | [], [] => 0
  | [], _ :: _ => -1
  | _ :: _, [] => 1
  | a :: as, b :: bs =>
    if a = b then strcmp as bs else if a.toNat < b.toNat then -1 else 1

/-! ## The allocator (`bmalloc`, `bstrdup`, `bfree`) -/

/-- Allocator state, kept as two logs.  `allocs` lists every block handed out so far as
`(handle, size)`; a fresh handle is the length of this log, so handles are never reused.
`frees` lists the handle of every pointer passed to `bfree`, in call order. -/
structure Heap where
  allocs : List (Nat × Nat)
  frees : List Nat
deriving DecidableEq

/-- A `char *` that points at the start of an allocated block: the handle of the block
and the string stored in it. -/
structure CPtr where
  handle : Nat
  str : CStr
deriving DecidableEq

/-- Host allocator `bmalloc(size)`: hands out a fresh block. -/
def bmalloc (m : Heap) (size : Nat) : Nat × Heap :=
  (m.allocs.length, { m with allocs := m.allocs ++ [(m.allocs.length, size)] })

/-- Host allocator `bstrdup(s)`: a fresh block of `strlen(s) + 1` bytes holding a copy
of `s`. -/
def bstrdup (m : Heap) (s : CStr) : CPtr × Heap :=
  let r := bmalloc m (strlen s + 1)
  ({ handle := r.1, str := s }, r.2)

/-- Host allocator `bfree(p)`: the call is recorded in the `frees` log. -/
def bfree (m : Heap) (p : CPtr) : Heap :=
  { m with frees := m.frees ++ [p.handle] }

/-- Number of times the block `h` has been passed to `bfree`. -/
def Heap.timesFreed (m : Heap) (h : Nat) : Nat := m.frees.count h

/-! ## `clear_window_title` -/

/-- Source function `clear_window_title(window)`.  The argument is a pointer to an
allocated string; the result is the returned pointer together with the allocator state.
In the last branch the returned pointer is the argument itself. -/
def clear_window_title (m : Heap) (window : CPtr) : CPtr × Heap :=
  if window.str.head? = some ':' then
    -- If first char is a colon, add a 1 before it
    let r := bmalloc m (strlen window.str + 2)
    ({ handle := r.1, str := '1' :: window.str }, r.2)
  else
    -- Otherwise remove all characters before the colon
    match strchr window.str ':' with
    | some colon_position => bstrdup m colon_position
    | none =>
      -- If no colon is there give the original window back
      (window, m)

/-- The canonicalization rule set in the words of the specification (section 4.3),
on string contents: rule 1 prepends `1` when the first character is a colon, rule 2
keeps the part from the first colon on, rule 3 is the identity. -/
def canonicalize (w : CStr) : CStr :=
  if w ≠ [] ∧ w.head? = some ':' then '1' :: w
  else if ':' ∈ w then w.drop (w.indexOf ':')
  else w

/-! ## The host: sources, settings, log -/

/-- Values of `enum obs_source_type`. -/
inductive obs_source_type where
  | OBS_SOURCE_TYPE_INPUT
  | OBS_SOURCE_TYPE_FILTER
  | OBS_SOURCE_TYPE_TRANSITION
  | OBS_SOURCE_TYPE_SCENE
deriving DecidableEq

/-- An `obs_data_t` settings object restricted to its string items: the key/value
items and the reference count. -/
structure obs_data where
  items : List (CStr × CStr)
  refs : Nat
deriving DecidableEq

/-- What the plugin can observe of an `obs_source_t`: name, unversioned id, type,
the parent link of a filter (`none` is NULL), the enabled flag, and the settings object
(`none` when `obs_source_get_settings` yields NULL). -/
structure obs_source where
  name : CStr
  unversioned_id : CStr
  type : obs_source_type
  filter_parent : Option Nat
  enabled : Bool
  settings : Option obs_data
deriving DecidableEq

/-- One line written through `blog`. -/
structure LogLine where
  level : Nat
  text : CStr
deriving DecidableEq

/-- Host state.  `source` maps a handle to the source it denotes, `updates` lists every
`obs_source_update` call as the source handle with the string items of the settings
passed, `enabled_changed_calls` is a ghost counter of the entries into
`gain_enabled_changed`. -/
structure Host where
  source : Nat → obs_source
  heap : Heap
  log : List LogLine
  updates : List (Nat × List (CStr × CStr))
  enabled_changed_calls : Nat

/-- Filter state `struct gain_data`. -/
structure gain_data where
  context : Nat
  enabled : Bool
deriving DecidableEq

/-- Value of the libobs constant `LOG_WARNING`. -/
def LOG_WARNING : Nat := 200

/-- Value of the libobs constant `LOG_INFO`. -/
def LOG_INFO : Nat := 300

/-- Host query `obs_source_enabled`. -/
def obs_source_enabled (H : Host) (s : Nat) : Bool := (H.source s).enabled

/-- Host query `obs_source_get_name`. -/
def obs_source_get_name (H : Host) (s : Nat) : CStr := (H.source s).name

/-- Host query `obs_source_get_type`. -/
def obs_source_get_type (H : Host) (s : Nat) : obs_source_type := (H.source s).type

/-- Host query `obs_filter_get_parent`. -/
def obs_filter_get_parent (H : Host) (s : Nat) : Option Nat := (H.source s).filter_parent

/-- Host query `obs_source_get_unversioned_id`. -/
def obs_source_get_unversioned_id (H : Host) (s : Nat) : CStr :=
  (H.source s).unversioned_id

/-- Lookup of a string item: the value of the first item with that key, the empty
string when there is none. -/
def items_get : List (CStr × CStr) → CStr → CStr
  | [], _ => []
  | (k, v) :: rest, key => if k = key then v else items_get rest key

/-- Store of a string item: replaces the value of the first item with that key, or
appends a new item. -/
def items_set : List (CStr × CStr) → CStr → CStr → List (CStr × CStr)
  | [], key, val => [(key, val)]
  | (k, v) :: rest, key, val =>
    if k = key then (key, val) :: rest else (k, v) :: items_set rest key val

/-- Replace the settings object of source `s`. -/
def Host.setSettings (H : Host) (s : Nat) (d : Option obs_data) : Host :=
  { H with source := fun i => if i = s then { H.source i with settings := d } else H.source i }

/-- Host call `obs_source_get_settings`: the settings object of the source with one
more reference, or NULL.  A settings object is named by the handle of its source. -/
def obs_source_get_settings (H : Host) (s : Nat) : Option Nat × Host :=
  match (H.source s).settings with
  | none => (none, H)
  | some d => (some s, H.setSettings s (some { d with refs := d.refs + 1 }))

/-- Host call `obs_data_get_string` on the settings object of source `d`. -/
def obs_data_get_string (H : Host) (d : Nat) (key : CStr) : CStr :=
  match (H.source d).settings with
  | none => []
  | some o => items_get o.items key

/-- Host call `obs_data_set_string` on the settings object of source `d`: the value is
copied into the object. -/
def obs_data_set_string (H : Host) (d : Nat) (key val : CStr) : Host :=
  match (H.source d).settings with
  | none => H
  | some o => H.setSettings d (some { o with items := items_set o.items key val })

/-- Host call `obs_source_update(source, settings)`: commits the settings to the
source; the call is recorded with the string items that `settings` holds at that
moment. -/
def obs_source_update (H : Host) (source settings : Nat) : Host :=
  match (H.source settings).settings with
  | none => { H with updates := H.updates ++ [(source, [])] }
  | some o => { H with updates := H.updates ++ [(source, o.items)] }

/-- Host call `obs_data_release`: drops one reference. -/
def obs_data_release (H : Host) (d : Nat) : Host :=
  match (H.source d).settings with
  | none => H
  | some o => H.setSettings d (some { o with refs := o.refs - 1 })

/-- The `do_log` macro: writes the message after the fixed tag that carries the name
of the filter. -/
def do_log (H : Host) (gf : gain_data) (level : Nat) (msg : CStr) : Host :=
  let line : LogLine :=
    LogLine.mk level ("[app audio source restart filter: \x27".toList
      ++ obs_source_get_name H gf.context ++ "\x27] ".toList ++ msg)
  { H with log := H.log ++ [line] }

/-- The `info` macro. -/
def info (H : Host) (gf : gain_data) (msg : CStr) : Host := do_log H gf LOG_INFO msg

/-! ## The filter callbacks -/

/-- Source function `gain_update`: does nothing. -/
def gain_update (H : Host) (_gf : gain_data) (_s : Option Nat) : Host := H

/-- Source function `gain_create`: the new filter state mirrors the enabled flag of the
filter. -/
def gain_create (H : Host) (settings : Option Nat) (filter : Nat) : gain_data × Host :=
  let gf : gain_data := { context := filter, enabled := obs_source_enabled H filter }
  (gf, gain_update H gf settings)

/-- Source function `gain_filter_add`: re-reads the enabled flag of `gf->context`. -/
def gain_filter_add (H : Host) (gf : gain_data) (_filter : Nat) : gain_data × Host :=
  let gf1 : gain_data := { gf with enabled := obs_source_enabled H gf.context }
  (gf1, info H gf1 "gain_filter_add".toList)

/-- Source function `gain_filter_remove`: re-reads the enabled flag of `gf->context`. -/
def gain_filter_remove (H : Host) (gf : gain_data) (_filter : Nat) : gain_data × Host :=
  let gf1 : gain_data := { gf with enabled := obs_source_enabled H gf.context }
  (gf1, info H gf1 "gain_filter_remove".toList)

/-- Source function `try_find_input_source`.  Each evaluation of the loop condition
costs one unit of fuel; `none` means the fuel ran out, `some r` is the returned pointer
(`some none` for NULL). -/
def try_find_input_source (H : Host) : Nat → Option Nat → Option (Option Nat)
  | 0, _ => none
  | _ + 1, none => some none
  | fuel + 1, some source =>
    if obs_source_get_type H source = obs_source_type.OBS_SOURCE_TYPE_INPUT then
      some (some source)
    else
      try_find_input_source H fuel (obs_filter_get_parent H source)

/-- The fixed id of the application audio capture source. -/
def WASAPI_ID : CStr := "wasapi_process_output_capture".toList

/-- The settings key that `restart_source` rewrites. -/
def WINDOW_KEY : CStr := "window".toList

/-- Source function `restart_source`. -/
def restart_source (H : Host) (gf : gain_data) (source : Nat) : Host :=
  let name := obs_source_get_name H source
  let H1 := info H gf ("Restart source: ".toList ++ name ++ "...".toList)
  -- We only do something if it is the application audio source.
  let source_id := obs_source_get_unversioned_id H1 source
  if strcmp source_id WASAPI_ID ≠ 0 then H1
  else
    match obs_source_get_settings H1 source with
    | (none, H2) => H2
    | (some settings, H2) =>
      let window := obs_data_get_string H2 settings WINDOW_KEY
      let o := bstrdup H2.heap window
      let origwindow := o.1
      -- Remove window title, to make a change
      let n := clear_window_title o.2 origwindow
      let newwindow := n.1
      let H3 := { H2 with heap := n.2 }
      let H4 := obs_data_set_string H3 settings WINDOW_KEY newwindow.str
      let H5 := obs_source_update H4 source settings
      -- Add window title back, so it reinitializes the source.
      let H6 := obs_data_set_string H5 settings WINDOW_KEY origwindow.str
      let H7 := obs_source_update H6 source settings
      let H8 := info H7 gf ("Restarted source: ".toList ++ name ++ "!".toList)
      let H9 := { H8 with heap := bfree H8.heap newwindow }
      let H10 := { H9 with heap := bfree H9.heap origwindow }
      obs_data_release H10 settings

/-- Source function `gain_enabled_changed`; `none` when the parent walk ran out of
fuel. -/
def gain_enabled_changed (fuel : Nat) (H : Host) (gf : gain_data) : Option Host :=
  let H0 := { H with enabled_changed_calls := H.enabled_changed_calls + 1 }
  let filter := gf.context
  match try_find_input_source H0 fuel (some filter) with
  | none => none
  | some none => some (info H0 gf "Input source for filter not found".toList)
  | some (some source) => some (restart_source H0 gf source)

/-- Source function `gain_tick`: returns the filter state and the host state after the
callback; `none` when the parent walk ran out of fuel. -/
def gain_tick (fuel : Nat) (H : Host) (gf : gain_data) : Option (gain_data × Host) :=
  let currEnabled := obs_source_enabled H gf.context
  if gf.enabled = currEnabled then some (gf, H)
  else
    let gf1 : gain_data := { gf with enabled := currEnabled }
    match gain_enabled_changed fuel H gf1 with
    | none => none
    | some H1 => some (gf1, H1)

/-! ## Driving the filter -/

/-- Host-side action between two frames: the enabled flag of source `s` becomes `b`. -/
def host_set_enabled (H : Host) (s : Nat) (b : Bool) : Host :=
  { H with source := fun i => if i = s then { H.source i with enabled := b } else H.source i }

/-- Successive frames: before the i-th `gain_tick` the host holds the i-th observed
value in the enabled flag of the filter; no other callback runs in between. -/
def run_ticks (fuel : Nat) : Host → gain_data → List Bool → Option (gain_data × Host)
  | H, gf, [] => some (gf, H)
  | H, gf, b :: bs =>
    match gain_tick fuel (host_set_enabled H gf.context b) gf with
    | none => none
    | some r => run_ticks fuel r.2 r.1 bs

/-- Number of positions i of the observed sequence whose value differs from the one
before it, the value before the first being `e0`. -/
def transitions (e0 : Bool) (bs : List Bool) : Nat :=
  ((e0 :: bs).zip bs).countP (fun p => p.1 != p.2)

/-- The list `c` is the whole parent chain that starts at pointer `p`: it begins with
the object `p` points to, each next element is the parent of the one before, and the
last element has no parent.  For NULL the chain is empty. -/
def IsChain (H : Host) : Option Nat → List Nat → Prop
  | p, [] => p = none
  | p, x :: rest => p = some x ∧ IsChain H (obs_filter_get_parent H x) rest

/-- Two host states with the same source graph: every handle has the same type and the
same parent link in both. -/
def SameGraph (H H' : Host) : Prop :=
  ∀ i, (H'.source i).type = (H.source i).type
    ∧ (H'.source i).filter_parent = (H.source i).filter_parent

/-- Whether the object behind a handle is an input source. -/
def isInput (H : Host) (s : Nat) : Bool :=
  decide (obs_source_get_type H s = obs_source_type.OBS_SOURCE_TYPE_INPUT)

/-! ## Concrete hosts used in the examples -/

/-- Filter (handle 0) that sits on an application audio capture source (handle 1)
whose `window` setting is `w`. -/
def demoHost (w : CStr) : Host :=
  { source := fun i =>
      if i = 0 then
        { name := "restart".toList, unversioned_id := "app_audio_source_restart_filter".toList,
          type := obs_source_type.OBS_SOURCE_TYPE_FILTER, filter_parent := some 1,
          enabled := false, settings := some { items := [], refs := 1 } }
      else
        { name := "game".toList, unversioned_id := WASAPI_ID,
          type := obs_source_type.OBS_SOURCE_TYPE_INPUT, filter_parent := none,
          enabled := true, settings := some { items := [(WINDOW_KEY, w)], refs := 1 } }
    heap := { allocs := [], frees := [] }
    log := []
    updates := []
    enabled_changed_calls := 0 }

/-- The host `demoHost w` after the capture source (handle 1) lost its settings object,
so that `obs_source_get_settings` yields NULL for it. -/
def demoHostNull (w : CStr) : Host :=
  { demoHost w with
    source := fun i => { (demoHost w).source i with settings := none } }

/-- Filter state of the filter of `demoHost`, stored flag disabled. -/
def demoFilter : gain_data := { context := 0, enabled := false }

/-! ## Lemmas on the string functions -/

theorem strchr_eq_drop (w : CStr) (ch : Char) :
    strchr w ch = if ch ∈ w then some (w.drop (w.indexOf ch)) else none := by
  induction w with
  | nil => simp [strchr]
  | cons c rest ih =>
    by_cases h : c = ch
    · subst h
      simp [strchr]
    · have h2 : ¬ ch = c := fun e => h e.symm
      simp [strchr, h, h2, ih, List.indexOf_cons]

theorem strchr_some_head (w : CStr) (ch : Char) (r : CStr) (h : strchr w ch = some r) :
    r.head? = some ch := by
  induction w with
  | nil => simp [strchr] at h
  | cons c rest ih =>
    by_cases hc : c = ch
    · simp [strchr, hc] at h
      subst h
      simp
    · simp [strchr, hc] at h
      exact ih h

theorem strchr_none_iff (w : CStr) (ch : Char) : strchr w ch = none ↔ ch ∉ w := by
  rw [strchr_eq_drop]
  split <;> simp_all

theorem strcmp_eq_zero_iff (a b : CStr) : strcmp a b = 0 ↔ a = b := by
  induction a generalizing b with
  | nil => cases b <;> simp [strcmp]
  | cons x xs ih =>
    cases b with
    | nil => simp [strcmp]
    | cons y ys =>
      by_cases hxy : x = y
      · simp [strcmp, hxy, ih]
      · simp only [strcmp, hxy, if_false, List.cons.injEq, false_and, iff_false]
        split <;> decide

theorem head_colon_mem (w : CStr) (h : w.head? = some ':') : ':' ∈ w := by
  cases w with
  | nil => simp at h
  | cons c rest =>
    simp at h
    simp [h]

theorem clear_window_title_str (m : Heap) (window : CPtr) :
    (clear_window_title m window).1.str = canonicalize window.str := by
  unfold clear_window_title canonicalize
  by_cases h1 : window.str.head? = some ':'
  · have hne : window.str ≠ [] := by
      intro e
      simp [e] at h1
    simp [h1, hne]
  · simp only [h1, if_false, and_false]
    rw [strchr_eq_drop]
    by_cases h2 : ':' ∈ window.str
    · simp [h2, bstrdup]
    · simp [h2]

theorem clear_window_title_str_eq_iff (m : Heap) (window : CPtr) :
    (clear_window_title m window).1.str = window.str ↔ ':' ∉ window.str := by
  unfold clear_window_title
  by_cases h1 : window.str.head? = some ':'
  · simp [h1, head_colon_mem _ h1]
  · simp only [h1, if_false]
    cases hs : strchr window.str ':' with
    | none =>
      have := (strchr_none_iff _ _).1 hs
      simp [this]
    | some r =>
      have hmem : ':' ∈ window.str := by
        by_contra hn
        rw [(strchr_none_iff _ _).2 hn] at hs
        cases hs
      have hr := strchr_some_head _ _ _ hs
      simp only [bstrdup, hmem, not_true_eq_false, iff_false]
      intro e
      rw [e] at hr
      exact h1 hr

theorem clear_window_title_alloc (m : Heap) (window : CPtr) :
    (':' ∉ window.str → clear_window_title m window = (window, m))
    ∧ (':' ∈ window.str → ∃ size,
        (clear_window_title m window).1.handle = m.allocs.length
        ∧ (clear_window_title m window).2 = (bmalloc m size).2) := by
  unfold clear_window_title
  by_cases h1 : window.str.head? = some ':'
  · have hmem := head_colon_mem _ h1
    simp only [h1, if_true, hmem, not_true_eq_false, false_implies, true_implies, true_and]
    exact ⟨_, rfl, rfl⟩
  · simp only [h1, if_false]
    cases hs : strchr window.str ':' with
    | none =>
      have := (strchr_none_iff _ _).1 hs
      simp [this]
    | some r =>
      have hmem : ':' ∈ window.str := by
        by_contra hn
        rw [(strchr_none_iff _ _).2 hn] at hs
        cases hs
      simp only [hmem, not_true_eq_false, false_implies, true_implies, true_and]
      exact ⟨_, rfl, rfl⟩

/-! ## Lemmas on the settings store and on `restart_source` -/

theorem items_get_set_same (l : List (CStr × CStr)) (k v : CStr) :
    items_get (items_set l k v) k = v := by
  induction l with
  | nil => simp [items_set, items_get]
  | cons e rest ih =>
    obtain ⟨k1, v1⟩ := e
    by_cases h : k1 = k
    · simp [items_set, items_get, h]
    · simp [items_set, items_get, h, ih]

theorem restart_source_happy (H : Host) (gf : gain_data) (s : Nat) (d : obs_data)
    (hid : (H.source s).unversioned_id = WASAPI_ID)
    (hset : (H.source s).settings = some d) :
    (restart_source H gf s).updates =
        H.updates ++
          [(s, items_set d.items WINDOW_KEY
                (clear_window_title (bstrdup H.heap (items_get d.items WINDOW_KEY)).2
                  (bstrdup H.heap (items_get d.items WINDOW_KEY)).1).1.str),
           (s, items_set (items_set d.items WINDOW_KEY
                (clear_window_title (bstrdup H.heap (items_get d.items WINDOW_KEY)).2
                  (bstrdup H.heap (items_get d.items WINDOW_KEY)).1).1.str)
                WINDOW_KEY (items_get d.items WINDOW_KEY))]
    ∧ ((restart_source H gf s).source s).settings =
        some { items := items_set (items_set d.items WINDOW_KEY
                (clear_window_title (bstrdup H.heap (items_get d.items WINDOW_KEY)).2
                  (bstrdup H.heap (items_get d.items WINDOW_KEY)).1).1.str)
                WINDOW_KEY (items_get d.items WINDOW_KEY),
               refs := d.refs }
    ∧ (restart_source H gf s).heap =
        bfree (bfree (clear_window_title (bstrdup H.heap (items_get d.items WINDOW_KEY)).2
                  (bstrdup H.heap (items_get d.items WINDOW_KEY)).1).2
                (clear_window_title (bstrdup H.heap (items_get d.items WINDOW_KEY)).2
                  (bstrdup H.heap (items_get d.items WINDOW_KEY)).1).1)
              (bstrdup H.heap (items_get d.items WINDOW_KEY)).1 := by
  have hz : strcmp (H.source s).unversioned_id WASAPI_ID = 0 := (strcmp_eq_zero_iff _ _).2 hid
  simp [restart_source, info, do_log, obs_source_get_unversioned_id, obs_source_get_settings,
    obs_data_get_string, obs_data_set_string, obs_source_update, obs_data_release,
    Host.setSettings, hz, hset, bstrdup]

theorem restart_source_graph (H : Host) (gf : gain_data) (s : Nat) :
    (∀ i, ((restart_source H gf s).source i).type = (H.source i).type)
    ∧ (∀ i, ((restart_source H gf s).source i).filter_parent = (H.source i).filter_parent)
    ∧ (∀ i, ((restart_source H gf s).source i).enabled = (H.source i).enabled)
    ∧ (restart_source H gf s).enabled_changed_calls = H.enabled_changed_calls := by
  by_cases hz : strcmp (H.source s).unversioned_id WASAPI_ID = 0
  · cases hset : (H.source s).settings with
    | none =>
      simp [restart_source, info, do_log, obs_source_get_unversioned_id,
        obs_source_get_settings, hz, hset]
    | some d =>
      simp only [restart_source, info, do_log, obs_source_get_unversioned_id,
        obs_source_get_settings, obs_data_get_string, obs_data_set_string, obs_source_update,
        obs_data_release, Host.setSettings, hz, hset, bstrdup]
      simp
      refine ⟨?_, ?_, ?_⟩ <;> intro i <;> split <;> simp_all
  · simp [restart_source, info, do_log, obs_source_get_unversioned_id, hz]

theorem restart_source_noop (H : Host) (gf : gain_data) (s : Nat)
    (h : obs_source_get_unversioned_id H s ≠ WASAPI_ID ∨ (H.source s).settings = none) :
    (restart_source H gf s).source = H.source
    ∧ (restart_source H gf s).updates = H.updates
    ∧ (restart_source H gf s).heap = H.heap := by
  by_cases hz : strcmp (H.source s).unversioned_id WASAPI_ID = 0
  · have hid := (strcmp_eq_zero_iff _ _).1 hz
    rcases h with h | h
    · exact absurd hid h
    · simp [restart_source, info, do_log, obs_source_get_unversioned_id,
        obs_source_get_settings, hz, h]
  · simp [restart_source, info, do_log, obs_source_get_unversioned_id, hz]

/-! ## Lemmas on the parent walk and on the tick callback -/

theorem SameGraph.refl (H : Host) : SameGraph H H := fun _ => ⟨rfl, rfl⟩

theorem SameGraph.trans {A B C : Host} (h1 : SameGraph A B) (h2 : SameGraph B C) :
    SameGraph A C := fun i =>
  ⟨(h2 i).1.trans (h1 i).1, (h2 i).2.trans (h1 i).2⟩

theorem try_find_congr {H H' : Host} (h : SameGraph H H') (fuel : Nat) (p : Option Nat) :
    try_find_input_source H' fuel p = try_find_input_source H fuel p := by
  induction fuel generalizing p with
  | zero => rfl
  | succ n ih =>
    cases p with
    | none => rfl
    | some x =>
      simp only [try_find_input_source, obs_source_get_type, obs_filter_get_parent,
        (h x).1, (h x).2, ih]

theorem IsChain_congr {H H' : Host} (h : SameGraph H H') (p : Option Nat) (c : List Nat) :
    IsChain H' p c ↔ IsChain H p c := by
  induction c generalizing p with
  | nil => simp [IsChain]
  | cons x rest ih =>
    simp only [IsChain, obs_filter_get_parent, (h x).2, ih]

theorem try_find_of_chain (H : Host) (fuel : Nat) (p : Option Nat) (c : List Nat)
    (hc : IsChain H p c) (hf : c.length < fuel) :
    try_find_input_source H fuel p = some (c.find? (isInput H)) := by
  induction c generalizing p fuel with
  | nil =>
    simp only [IsChain] at hc
    subst hc
    cases fuel with
    | zero => simp at hf
    | succ n => simp [try_find_input_source]
  | cons x rest ih =>
    obtain ⟨hp, hrest⟩ := hc
    subst hp
    cases fuel with
    | zero => simp at hf
    | succ n =>
      have hn : rest.length < n := by simpa using hf
      by_cases hx : obs_source_get_type H x = obs_source_type.OBS_SOURCE_TYPE_INPUT
      · simp [try_find_input_source, hx, isInput, List.find?]
      · simp [try_find_input_source, hx, isInput, List.find?, ih n _ hrest hn]

theorem gain_enabled_changed_spec (fuel : Nat) (H : Host) (gf : gain_data) (c : List Nat)
    (hc : IsChain H (some gf.context) c) (hf : c.length < fuel) :
    ∃ H', gain_enabled_changed fuel H gf = some H'
      ∧ H'.enabled_changed_calls = H.enabled_changed_calls + 1
      ∧ SameGraph H H'
      ∧ ∀ i, (H'.source i).enabled = (H.source i).enabled := by
  have hfind := try_find_of_chain H fuel (some gf.context) c hc hf
  have hsame : SameGraph H
      { H with enabled_changed_calls := H.enabled_changed_calls + 1 } := fun _ => ⟨rfl, rfl⟩
  have hfind0 := (try_find_congr hsame fuel (some gf.context)).trans hfind
  unfold gain_enabled_changed
  simp only [hfind0]
  cases List.find? (isInput H) c with
  | none =>
    exact ⟨_, rfl, rfl, fun _ => ⟨rfl, rfl⟩, fun _ => rfl⟩
  | some src =>
    have hg := restart_source_graph
      { H with enabled_changed_calls := H.enabled_changed_calls + 1 } gf src
    exact ⟨_, rfl, hg.2.2.2, fun i => ⟨hg.1 i, hg.2.1 i⟩, hg.2.2.1⟩

theorem gain_tick_spec (fuel : Nat) (H : Host) (gf : gain_data) (c : List Nat)
    (hc : IsChain H (some gf.context) c) (hf : c.length < fuel) :
    ∃ gf' H', gain_tick fuel H gf = some (gf', H')
      ∧ gf'.context = gf.context
      ∧ gf'.enabled = obs_source_enabled H gf.context
      ∧ H'.enabled_changed_calls = H.enabled_changed_calls
          + (if gf.enabled = obs_source_enabled H gf.context then 0 else 1)
      ∧ SameGraph H H'
      ∧ ∀ i, (H'.source i).enabled = (H.source i).enabled := by
  unfold gain_tick
  by_cases he : gf.enabled = obs_source_enabled H gf.context
  · exact ⟨gf, H, by simp [he], rfl, he, by simp [he], SameGraph.refl H, fun _ => rfl⟩
  · obtain ⟨H', h1, h2, h3, h4⟩ := gain_enabled_changed_spec fuel H
      { gf with enabled := obs_source_enabled H gf.context } c hc hf
    exact ⟨{ gf with enabled := obs_source_enabled H gf.context }, H', by simp [he, h1],
      rfl, rfl, by simp [he, h2], h3, h4⟩

theorem gain_tick_enabled (fuel : Nat) (H : Host) (gf : gain_data) (r : gain_data × Host)
    (h : gain_tick fuel H gf = some r) :
    r.1.enabled = obs_source_enabled H gf.context ∧ r.1.context = gf.context := by
  unfold gain_tick at h
  by_cases he : gf.enabled = obs_source_enabled H gf.context
  · simp [he] at h
    subst h
    exact ⟨he, rfl⟩
  · simp only [he, if_false] at h
    cases hg : gain_enabled_changed fuel H
        { gf with enabled := obs_source_enabled H gf.context } with
    | none => simp [hg] at h
    | some H1 =>
      simp [hg] at h
      subst h
      exact ⟨rfl, rfl⟩

theorem transitions_cons (e0 b : Bool) (bs : List Bool) :
    transitions e0 (b :: bs) = (if e0 = b then 0 else 1) + transitions b bs := by
  unfold transitions
  simp only [List.zip_cons_cons, List.countP_cons]
  by_cases h : e0 = b
  · simp [h]
  · simp [h]
    omega

theorem host_set_enabled_graph (H : Host) (s : Nat) (b : Bool) :
    SameGraph H (host_set_enabled H s b) := by
  intro i
  unfold host_set_enabled
  by_cases h : i = s <;> simp [h]

theorem run_ticks_spec (fuel : Nat) (c : List Nat) (bs : List Bool) :
    ∀ (H : Host) (gf : gain_data), IsChain H (some gf.context) c → c.length < fuel →
    ∃ gf' H', run_ticks fuel H gf bs = some (gf', H')
      ∧ gf'.context = gf.context
      ∧ gf'.enabled = (bs.getLast?).getD gf.enabled
      ∧ H'.enabled_changed_calls = H.enabled_changed_calls + transitions gf.enabled bs
      ∧ SameGraph H H' := by
  induction bs with
  | nil =>
    intro H gf _ _
    exact ⟨gf, H, rfl, rfl, rfl, by simp [transitions], SameGraph.refl H⟩
  | cons b bs ih =>
    intro H gf hc hf
    have hg0 := host_set_enabled_graph H gf.context b
    have hc0 := (IsChain_congr hg0 (some gf.context) c).2 hc
    obtain ⟨gf1, H1, h1, h2, h3, h4, h5, _⟩ :=
      gain_tick_spec fuel (host_set_enabled H gf.context b) gf c hc0 hf
    have hobs : obs_source_enabled (host_set_enabled H gf.context b) gf.context = b := by
      simp [obs_source_enabled, host_set_enabled]
    rw [hobs] at h3 h4
    have hc1 : IsChain H1 (some gf1.context) c := by
      rw [h2]
      exact (IsChain_congr h5 (some gf.context) c).2 hc0
    obtain ⟨gf2, H2, k1, k2, k3, k4, k5⟩ := ih H1 gf1 hc1 hf
    refine ⟨gf2, H2, ?_, k2.trans h2, ?_, ?_, (hg0.trans h5).trans k5⟩
    · simp [run_ticks, h1, k1]
    · rw [k3, h3]
      cases bs <;> simp [List.getLast?]
    · rw [k4, h4, h3, transitions_cons]
      have : (host_set_enabled H gf.context b).enabled_changed_calls
          = H.enabled_changed_calls := rfl
      rw [this]
      omega

/-! ## The canonicalization function -/

/-- C1: for every string (the empty one included) the string that `clear_window_title`
returns is the three-branch reference: `1` followed by the input when the input starts
with a colon; otherwise the part of the input from its first colon on when it has one;
otherwise the input itself.  In particular `:abc` gives `1:abc` and `NoColonHere` is
returned as it is. -/
theorem clear_window_title_matches_reference :
    (∀ (m : Heap) (window : CPtr),
      (clear_window_title m window).1.str = canonicalize window.str)
    ∧ (∀ (m : Heap) (h : Nat),
      (clear_window_title m { handle := h, str := ":abc".toList }).1.str = "1:abc".toList)
    ∧ (∀ (m : Heap) (h : Nat),
      (clear_window_title m { handle := h, str := "NoColonHere".toList }).1.str
        = "NoColonHere".toList) :=
  ⟨clear_window_title_str, fun _ _ => rfl, fun _ _ => rfl⟩

/-- C2, the claim as stated fails: on `C:\foo.exe:MyWindow:cls`, with the backslash read
as one character or as two, `clear_window_title` does not return `:MyWindow:cls`. -/
theorem clear_window_title_drive_letter_not_stripped :
    (clear_window_title { allocs := [], frees := [] }
        { handle := 0, str := "C:\\foo.exe:MyWindow:cls".toList }).1.str
      ≠ ":MyWindow:cls".toList
    ∧ (clear_window_title { allocs := [], frees := [] }
        { handle := 0, str := "C:\\\\foo.exe:MyWindow:cls".toList }).1.str
      ≠ ":MyWindow:cls".toList := by
  decide

/-- C2 as amended: on `C:\foo.exe:MyWindow:cls` the function returns the input from its
first colon on, which is the colon after the drive letter: `:\foo.exe:MyWindow:cls`
(with the backslash read as one character or as two).  Only the `C` before the first
colon is removed; the result still ends in `:MyWindow:cls`. -/
theorem clear_window_title_drive_letter_result :
    (∀ (m : Heap) (h : Nat),
      (clear_window_title m { handle := h, str := "C:\\foo.exe:MyWindow:cls".toList }).1.str
        = ":\\foo.exe:MyWindow:cls".toList)
    ∧ (∀ (m : Heap) (h : Nat),
      (clear_window_title m { handle := h, str := "C:\\\\foo.exe:MyWindow:cls".toList }).1.str
        = ":\\\\foo.exe:MyWindow:cls".toList)
    ∧ (∀ (m : Heap) (h : Nat), ∃ pre,
      (clear_window_title m { handle := h, str := "C:\\foo.exe:MyWindow:cls".toList }).1.str
        = pre ++ ":MyWindow:cls".toList)
    ∧ (∀ (m : Heap) (h : Nat), ∃ pre,
      (clear_window_title m { handle := h, str := "C:\\\\foo.exe:MyWindow:cls".toList }).1.str
        = pre ++ ":MyWindow:cls".toList) :=
  ⟨fun _ _ => rfl, fun _ _ => rfl, fun _ _ => ⟨":\\foo.exe".toList, rfl⟩,
    fun _ _ => ⟨":\\\\foo.exe".toList, rfl⟩⟩

/-! ## The restart trigger -/

/-- C3: when `restart_source` runs on a source whose unversioned id is
`wasapi_process_output_capture`, whose settings object is available and whose `window`
setting reads `w`, the settings object is still there afterwards and its `window`
setting reads exactly `w`. -/
theorem restart_source_restores_window (H : Host) (gf : gain_data) (source : Nat)
    (d : obs_data) (w : CStr)
    (hid : obs_source_get_unversioned_id H source = WASAPI_ID)
    (hset : (H.source source).settings = some d)
    (hw : obs_data_get_string H source WINDOW_KEY = w) :
    obs_data_get_string (restart_source H gf source) source WINDOW_KEY = w
    ∧ ((restart_source H gf source).source source).settings ≠ none := by
  have hh := (restart_source_happy H gf source d hid hset).2.1
  have hw2 : items_get d.items WINDOW_KEY = w := by
    simpa [obs_data_get_string, hset] using hw
  constructor
  · simp only [obs_data_get_string, hh, items_get_set_same, hw2]
  · simp [hh]

/-- Witness of C3 on the demo host with window `:Notepad:cls`. -/
theorem restart_source_restores_window_witness :
    obs_source_get_unversioned_id (demoHost ":Notepad:cls".toList) 1 = WASAPI_ID
    ∧ ((demoHost ":Notepad:cls".toList).source 1).settings
        = some { items := [(WINDOW_KEY, ":Notepad:cls".toList)], refs := 1 }
    ∧ obs_data_get_string (demoHost ":Notepad:cls".toList) 1 WINDOW_KEY
        = ":Notepad:cls".toList
    ∧ (obs_data_get_string (restart_source (demoHost ":Notepad:cls".toList) demoFilter 1) 1
          WINDOW_KEY = ":Notepad:cls".toList
      ∧ ((restart_source (demoHost ":Notepad:cls".toList) demoFilter 1).source 1).settings
          ≠ none) :=
  ⟨rfl, rfl, rfl,
    restart_source_restores_window (demoHost ":Notepad:cls".toList) demoFilter 1
      { items := [(WINDOW_KEY, ":Notepad:cls".toList)], refs := 1 } ":Notepad:cls".toList
      rfl rfl rfl⟩

/-- C4: on a `wasapi_process_output_capture` source with an available settings object
whose `window` reads `w`, `restart_source` adds exactly two `obs_source_update` calls,
both on that source: at the first the `window` setting is `clear_window_title(w)`, at the
second it is `w`. -/
theorem restart_source_two_commits (H : Host) (gf : gain_data) (source : Nat)
    (d : obs_data) (w : CStr)
    (hid : obs_source_get_unversioned_id H source = WASAPI_ID)
    (hset : (H.source source).settings = some d)
    (hw : obs_data_get_string H source WINDOW_KEY = w) :
    ∃ first second,
      (restart_source H gf source).updates = H.updates ++ [(source, first), (source, second)]
      ∧ (∀ (m : Heap) (h : Nat),
          items_get first WINDOW_KEY = (clear_window_title m { handle := h, str := w }).1.str)
      ∧ items_get second WINDOW_KEY = w := by
  have hh := (restart_source_happy H gf source d hid hset).1
  have hw2 : items_get d.items WINDOW_KEY = w := by
    simpa [obs_data_get_string, hset] using hw
  refine ⟨_, _, hh, ?_, ?_⟩
  · intro m h
    rw [items_get_set_same, clear_window_title_str, clear_window_title_str]
    simp [bstrdup, hw2]
  · rw [items_get_set_same, hw2]

/-- Witness of C4: with window `:Notepad:cls` the two commits carry `1:Notepad:cls` and
then `:Notepad:cls`, also when the restart is reached through a `gain_tick` that sees the
filter switched from disabled to enabled. -/
theorem restart_source_two_commits_witness :
    (obs_source_get_unversioned_id (demoHost ":Notepad:cls".toList) 1 = WASAPI_ID
      ∧ ((demoHost ":Notepad:cls".toList).source 1).settings
          = some { items := [(WINDOW_KEY, ":Notepad:cls".toList)], refs := 1 }
      ∧ obs_data_get_string (demoHost ":Notepad:cls".toList) 1 WINDOW_KEY
          = ":Notepad:cls".toList)
    ∧ (∃ first second,
        (restart_source (demoHost ":Notepad:cls".toList) demoFilter 1).updates
          = (demoHost ":Notepad:cls".toList).updates ++ [(1, first), (1, second)]
        ∧ (∀ (m : Heap) (h : Nat), items_get first WINDOW_KEY
            = (clear_window_title m { handle := h, str := ":Notepad:cls".toList }).1.str)
        ∧ items_get second WINDOW_KEY = ":Notepad:cls".toList)
    ∧ (restart_source (demoHost ":Notepad:cls".toList) demoFilter 1).updates
        = [(1, [(WINDOW_KEY, "1:Notepad:cls".toList)]),
           (1, [(WINDOW_KEY, ":Notepad:cls".toList)])]
    ∧ (gain_tick 3 (host_set_enabled (demoHost ":Notepad:cls".toList) 0 true)
          demoFilter).map (fun r => (r.1.enabled, r.2.updates,
            obs_data_get_string r.2 1 WINDOW_KEY))
        = some (true,
            [(1, [(WINDOW_KEY, "1:Notepad:cls".toList)]),
             (1, [(WINDOW_KEY, ":Notepad:cls".toList)])],
            ":Notepad:cls".toList) :=
  ⟨⟨rfl, rfl, rfl⟩,
    restart_source_two_commits (demoHost ":Notepad:cls".toList) demoFilter 1
      { items := [(WINDOW_KEY, ":Notepad:cls".toList)], refs := 1 } ":Notepad:cls".toList
      rfl rfl rfl,
    rfl, rfl⟩

/-- C5: when the unversioned id of the source is not `wasapi_process_output_capture`, or
its settings object is unavailable, `restart_source` leaves every source (and so every
settings field) as it was, makes no `obs_source_update` call and touches no buffer. -/
theorem restart_source_noop_outside_happy_path (H : Host) (gf : gain_data) (source : Nat)
    (h : obs_source_get_unversioned_id H source ≠ WASAPI_ID
      ∨ (obs_source_get_settings H source).1 = none) :
    (restart_source H gf source).source = H.source
    ∧ (restart_source H gf source).updates = H.updates
    ∧ (restart_source H gf source).heap = H.heap := by
  apply restart_source_noop
  rcases h with h | h
  · exact Or.inl h
  · right
    unfold obs_source_get_settings at h
    cases hs : (H.source source).settings with
    | none => rfl
    | some d => simp [hs] at h

/-- Witness of C5: the filter itself (handle 0, another id) as the source, and the
capture source without a settings object. -/
theorem restart_source_noop_outside_happy_path_witness :
    (obs_source_get_unversioned_id (demoHost ":Notepad:cls".toList) 0 ≠ WASAPI_ID
      ∧ (restart_source (demoHost ":Notepad:cls".toList) demoFilter 0).source
          = (demoHost ":Notepad:cls".toList).source
      ∧ (restart_source (demoHost ":Notepad:cls".toList) demoFilter 0).updates
          = (demoHost ":Notepad:cls".toList).updates
      ∧ (restart_source (demoHost ":Notepad:cls".toList) demoFilter 0).heap
          = (demoHost ":Notepad:cls".toList).heap)
    ∧ ((obs_source_get_settings (demoHostNull ":Notepad:cls".toList) 1).1 = none
      ∧ (restart_source (demoHostNull ":Notepad:cls".toList) demoFilter 1).source
          = (demoHostNull ":Notepad:cls".toList).source
      ∧ (restart_source (demoHostNull ":Notepad:cls".toList) demoFilter 1).updates
          = (demoHostNull ":Notepad:cls".toList).updates
      ∧ (restart_source (demoHostNull ":Notepad:cls".toList) demoFilter 1).heap
          = (demoHostNull ":Notepad:cls".toList).heap) :=
  ⟨⟨by decide,
      restart_source_noop_outside_happy_path (demoHost ":Notepad:cls".toList) demoFilter 0
        (Or.inl (by decide))⟩,
    ⟨rfl,
      restart_source_noop_outside_happy_path (demoHostNull ":Notepad:cls".toList) demoFilter 1
        (Or.inr rfl)⟩⟩

/-! ## The toggle observer -/

/-- C6: let the parent chain of the filter be finite (and the fuel exceed its length, so
that every parent walk finishes).  Starting from the stored flag `gf.enabled` and feeding
the observed values `bs` to successive `gain_tick` calls, the run finishes and the number
of entries into `gain_enabled_changed` grows by the number of positions of `bs` whose
value differs from the one before (the stored flag before the first).  A single
`gain_tick` enters it once when the observed value differs from the stored one and not
at all when they are equal. -/
theorem gain_tick_fires_once_per_transition (fuel : Nat) (H : Host) (gf : gain_data)
    (c : List Nat) (bs : List Bool)
    (hc : IsChain H (some gf.context) c) (hf : c.length < fuel) :
    (∃ gf' H', run_ticks fuel H gf bs = some (gf', H')
      ∧ H'.enabled_changed_calls = H.enabled_changed_calls + transitions gf.enabled bs)
    ∧ (∃ gf' H', gain_tick fuel H gf = some (gf', H')
      ∧ H'.enabled_changed_calls = H.enabled_changed_calls
          + (if gf.enabled = obs_source_enabled H gf.context then 0 else 1)) := by
  obtain ⟨gf1, H1, h1, _, _, h4, _⟩ := run_ticks_spec fuel c bs H gf hc hf
  obtain ⟨gf2, H2, k1, _, _, k4, _⟩ := gain_tick_spec fuel H gf c hc hf
  exact ⟨⟨gf1, H1, h1, h4⟩, ⟨gf2, H2, k1, k4⟩⟩

/-- Witness of C6: the demo filter, stored flag off, observing on, on, off, off, on. -/
theorem gain_tick_fires_once_per_transition_witness :
    (IsChain (demoHost "a:b".toList) (some demoFilter.context) [0, 1]
      ∧ [0, 1].length < 3)
    ∧ ((∃ gf' H', run_ticks 3 (demoHost "a:b".toList) demoFilter
            [true, true, false, false, true] = some (gf', H')
          ∧ H'.enabled_changed_calls = (demoHost "a:b".toList).enabled_changed_calls
              + transitions demoFilter.enabled [true, true, false, false, true])
        ∧ (∃ gf' H', gain_tick 3 (demoHost "a:b".toList) demoFilter = some (gf', H')
          ∧ H'.enabled_changed_calls = (demoHost "a:b".toList).enabled_changed_calls
              + (if demoFilter.enabled
                    = obs_source_enabled (demoHost "a:b".toList) demoFilter.context
                  then 0 else 1)))
    ∧ transitions demoFilter.enabled [true, true, false, false, true] = 3 :=
  ⟨⟨⟨rfl, rfl, rfl⟩, by decide⟩,
    gain_tick_fires_once_per_transition 3 (demoHost "a:b".toList) demoFilter [0, 1]
      [true, true, false, false, true] ⟨rfl, rfl, rfl⟩ (by decide),
    by decide⟩

/-- C7: whatever the stored flag was, a `gain_tick` that returns leaves `enabled` equal to
the value `obs_source_enabled` reported during that tick, whether or not a restart was
triggered; with a finite parent chain (and enough fuel) the tick does return, and the
flag of the filter in the host is still that value.  `gain_create`, `gain_filter_add` and
`gain_filter_remove` likewise store the value the host reports for the filter. -/
theorem enabled_mirrors_host (fuel : Nat) (H : Host) (gf : gain_data) (c : List Nat)
    (settings : Option Nat) (filter parent : Nat)
    (hc : IsChain H (some gf.context) c) (hf : c.length < fuel) :
    (∃ gf' H', gain_tick fuel H gf = some (gf', H')
      ∧ gf'.enabled = obs_source_enabled H gf.context
      ∧ gf'.enabled = obs_source_enabled H' gf'.context)
    ∧ (∀ (n : Nat) (r : gain_data × Host), gain_tick n H gf = some r →
        r.1.enabled = obs_source_enabled H gf.context)
    ∧ ((gain_create H settings filter).1.enabled = obs_source_enabled H filter
      ∧ (gain_create H settings filter).1.enabled
          = obs_source_enabled (gain_create H settings filter).2
              (gain_create H settings filter).1.context)
    ∧ ((gain_filter_add H gf parent).1.enabled = obs_source_enabled H gf.context
      ∧ (gain_filter_add H gf parent).1.enabled
          = obs_source_enabled (gain_filter_add H gf parent).2
              (gain_filter_add H gf parent).1.context)
    ∧ ((gain_filter_remove H gf parent).1.enabled = obs_source_enabled H gf.context
      ∧ (gain_filter_remove H gf parent).1.enabled
          = obs_source_enabled (gain_filter_remove H gf parent).2
              (gain_filter_remove H gf parent).1.context) := by
  obtain ⟨gf1, H1, h1, h2, h3, _, _, h6⟩ := gain_tick_spec fuel H gf c hc hf
  refine ⟨⟨gf1, H1, h1, h3, ?_⟩, fun n r hr => (gain_tick_enabled n H gf r hr).1,
    ⟨rfl, rfl⟩, ⟨rfl, rfl⟩, ⟨rfl, rfl⟩⟩
  rw [h3, h2]
  exact (h6 gf.context).symm

/-- Witness of C7 on the demo host after the user enabled the filter. -/
theorem enabled_mirrors_host_witness :
    (IsChain (host_set_enabled (demoHost "a:b".toList) 0 true) (some demoFilter.context) [0, 1]
      ∧ [0, 1].length < 3)
    ∧ (∃ gf' H', gain_tick 3 (host_set_enabled (demoHost "a:b".toList) 0 true) demoFilter
          = some (gf', H')
        ∧ gf'.enabled = true) :=
  ⟨⟨⟨rfl, rfl, rfl⟩, by decide⟩,
    (enabled_mirrors_host 3 (host_set_enabled (demoHost "a:b".toList) 0 true) demoFilter
      [0, 1] none 0 1 ⟨rfl, rfl, rfl⟩ (by decide)).1.imp
      fun _ h => h.imp fun _ h2 => ⟨h2.1, h2.2.1⟩⟩

/-! ## The parent walk -/

/-- C8: when `c` is the whole (finite) parent chain that starts at the given handle and
the fuel exceeds its length, `try_find_input_source` returns, and what it returns is the
first object of the chain, the starting handle included, whose type is
`OBS_SOURCE_TYPE_INPUT`: the result is NULL exactly when no object of the chain has that
type, and otherwise it is an input source and every object before it in the chain is
not. -/
theorem try_find_input_source_first_input (H : Host) (source : Option Nat) (c : List Nat)
    (fuel : Nat) (hc : IsChain H source c) (hf : c.length < fuel) :
    ∃ r, try_find_input_source H fuel source = some r
      ∧ r = c.find? (isInput H)
      ∧ (r = none ↔ ∀ x ∈ c, obs_source_get_type H x ≠ obs_source_type.OBS_SOURCE_TYPE_INPUT)
      ∧ (∀ x, r = some x →
          obs_source_get_type H x = obs_source_type.OBS_SOURCE_TYPE_INPUT
          ∧ ∃ pre post, c = pre ++ x :: post
            ∧ ∀ y ∈ pre, obs_source_get_type H y ≠ obs_source_type.OBS_SOURCE_TYPE_INPUT) := by
  refine ⟨c.find? (isInput H), try_find_of_chain H fuel source c hc hf, rfl, ?_, ?_⟩
  · simp [List.find?_eq_none, isInput]
  · intro x hx
    have h1 := List.find?_some hx
    refine ⟨by simpa [isInput] using h1, ?_⟩
    obtain ⟨_, pre, post, hcp, hpre⟩ := List.find?_eq_some.1 hx
    exact ⟨pre, post, hcp, fun y hy => by simpa [isInput] using hpre y hy⟩

/-- Witness of C8: from the demo filter the walk reaches the capture source, handle 1. -/
theorem try_find_input_source_first_input_witness :
    (IsChain (demoHost []) (some 0) [0, 1] ∧ [0, 1].length < 3)
    ∧ (∃ r, try_find_input_source (demoHost []) 3 (some 0) = some r
      ∧ r = [0, 1].find? (isInput (demoHost []))
      ∧ (r = none ↔ ∀ x ∈ [0, 1],
          obs_source_get_type (demoHost []) x ≠ obs_source_type.OBS_SOURCE_TYPE_INPUT)
      ∧ (∀ x, r = some x →
          obs_source_get_type (demoHost []) x = obs_source_type.OBS_SOURCE_TYPE_INPUT
          ∧ ∃ pre post, [0, 1] = pre ++ x :: post
            ∧ ∀ y ∈ pre,
              obs_source_get_type (demoHost []) y ≠ obs_source_type.OBS_SOURCE_TYPE_INPUT))
    ∧ try_find_input_source (demoHost []) 3 (some 0) = some (some 1) :=
  ⟨⟨⟨rfl, rfl, rfl⟩, by decide⟩,
    try_find_input_source_first_input (demoHost []) (some 0) [0, 1] 3 ⟨rfl, rfl, rfl⟩
      (by decide),
    rfl⟩

/-- C9: the string `clear_window_title` returns equals its input exactly when the input
has no colon.  Hence on the path where `restart_source` rewrites the `window` setting
`w`, the value at the first commit equals `w` exactly when `w` has no colon (with a colon
it differs from `w`, without one both commits carry `w`). -/
theorem clear_window_title_fixed_iff_no_colon :
    (∀ (m : Heap) (window : CPtr),
      (clear_window_title m window).1.str = window.str ↔ ':' ∉ window.str)
    ∧ (∀ (H : Host) (gf : gain_data) (source : Nat) (d : obs_data) (w : CStr),
        obs_source_get_unversioned_id H source = WASAPI_ID →
        (H.source source).settings = some d →
        obs_data_get_string H source WINDOW_KEY = w →
        ∃ first second,
          (restart_source H gf source).updates
            = H.updates ++ [(source, first), (source, second)]
          ∧ items_get second WINDOW_KEY = w
          ∧ (items_get first WINDOW_KEY = w ↔ ':' ∉ w)) := by
  refine ⟨clear_window_title_str_eq_iff, ?_⟩
  intro H gf source d w hid hset hw
  have hh := (restart_source_happy H gf source d hid hset).1
  have hw2 : items_get d.items WINDOW_KEY = w := by
    simpa [obs_data_get_string, hset] using hw
  refine ⟨_, _, hh, ?_, ?_⟩
  · rw [items_get_set_same, hw2]
  · rw [items_get_set_same]
    have := clear_window_title_str_eq_iff (bstrdup H.heap (items_get d.items WINDOW_KEY)).2
      (bstrdup H.heap (items_get d.items WINDOW_KEY)).1
    simpa [bstrdup, hw2] using this

/-- Witness of C9: with window `a:b` the first commit carries `:b`, with window `ab` it
carries `ab`. -/
theorem clear_window_title_fixed_iff_no_colon_witness :
    (∃ first second,
      (restart_source (demoHost "a:b".toList) demoFilter 1).updates
        = (demoHost "a:b".toList).updates ++ [(1, first), (1, second)]
      ∧ items_get second WINDOW_KEY = "a:b".toList
      ∧ (items_get first WINDOW_KEY = "a:b".toList ↔ ':' ∉ "a:b".toList))
    ∧ (restart_source (demoHost "a:b".toList) demoFilter 1).updates
        = [(1, [(WINDOW_KEY, ":b".toList)]), (1, [(WINDOW_KEY, "a:b".toList)])]
    ∧ (restart_source (demoHost "ab".toList) demoFilter 1).updates
        = [(1, [(WINDOW_KEY, "ab".toList)]), (1, [(WINDOW_KEY, "ab".toList)])] :=
  ⟨clear_window_title_fixed_iff_no_colon.2 (demoHost "a:b".toList) demoFilter 1
      { items := [(WINDOW_KEY, "a:b".toList)], refs := 1 } "a:b".toList rfl rfl rfl,
    rfl, rfl⟩

/-! ## Buffer ownership -/

/-- The `bfree` calls of `restart_source` on the path that rewrites the setting `w`.  With
a colon in `w` two blocks are handed out and each is released once.  Without a colon one
block is handed out, `clear_window_title` returns the pointer it was given, and that
block is passed to `bfree` twice. -/
theorem restart_source_frees (H : Host) (gf : gain_data) (source : Nat) (d : obs_data)
    (hid : obs_source_get_unversioned_id H source = WASAPI_ID)
    (hset : (H.source source).settings = some d) :
    (':' ∈ items_get d.items WINDOW_KEY →
      (restart_source H gf source).heap.allocs.length = H.heap.allocs.length + 2
      ∧ (restart_source H gf source).heap.frees
          = H.heap.frees ++ [H.heap.allocs.length + 1, H.heap.allocs.length])
    ∧ (':' ∉ items_get d.items WINDOW_KEY →
      (restart_source H gf source).heap.allocs.length = H.heap.allocs.length + 1
      ∧ (restart_source H gf source).heap.frees
          = H.heap.frees ++ [H.heap.allocs.length, H.heap.allocs.length]) := by
  have hh := (restart_source_happy H gf source d hid hset).2.2
  have ha := clear_window_title_alloc (bstrdup H.heap (items_get d.items WINDOW_KEY)).2
    (bstrdup H.heap (items_get d.items WINDOW_KEY)).1
  constructor
  · intro hmem
    obtain ⟨size, h1, h2⟩ := ha.2 (by simpa [bstrdup] using hmem)
    rw [hh, h2]
    simp only [bfree, h1]
    simp [bstrdup, bmalloc]
  · intro hmem
    have h1 := ha.1 (by simpa [bstrdup] using hmem)
    rw [hh, h1]
    simp [bfree, bstrdup, bmalloc]

/-- C10, evaluated where it fails: with the empty `window` value, and with
`NoColonHere`, `restart_source` hands out one block (handle 0) and passes it to `bfree`
twice; with `:Notepad:cls` it hands out two blocks and releases each once. -/
theorem restart_source_double_release :
    (restart_source (demoHost []) demoFilter 1).heap = { allocs := [(0, 1)], frees := [0, 0] }
    ∧ (restart_source (demoHost []) demoFilter 1).heap.timesFreed 0 = 2
    ∧ (restart_source (demoHost "NoColonHere".toList) demoFilter 1).heap
        = { allocs := [(0, 12)], frees := [0, 0] }
    ∧ (restart_source (demoHost "NoColonHere".toList) demoFilter 1).heap.timesFreed 0 = 2
    ∧ (restart_source (demoHost ":Notepad:cls".toList) demoFilter 1).heap
        = { allocs := [(0, 13), (1, 14)], frees := [1, 0] } := by
  refine ⟨rfl, rfl, rfl, rfl, rfl⟩

end AppAudioRestart
